import Mathlib

/-!
Verification of the authenticated-command protocol core (`Signer.js`,
`CarServer.js`) of the tesla-cmd-api repository, as a shallow embedding.

Bytes are modelled as `List Nat` (each element a byte value); the incremental
HMAC context of Node's crypto module is modelled as the list of bytes absorbed
so far, with the final digest given by an explicit HMAC function parameter
`hmac : Bytes → Bytes → Bytes` (key, data ↦ digest), since the claims concern
which bytes are absorbed and in which order, not the SHA-256 compression
function itself.  Fallible operations (JavaScript `throw`) are modelled with
`Except JsError`.
-/

/-- Byte strings: each element is one byte value. -/
abbrev Bytes := List Nat

deriving instance DecidableEq for Except

/-- Every distinct `throw new Error(...)` site of `Signer.js` / `CarServer.js`
that the claims mention, as one error type. -/
inductive JsError where
  /-- "metadata items need to be added in increasing tag order" -/
  | outOfOrderTag
  /-- "metadata fields can't be more than 255 bytes long" -/
  | oversizedField
  /-- RangeError thrown by `Buffer.writeUInt32BE` for a value outside `[0, 2^32)` -/
  | uint32Range
  /-- RangeError thrown by `crypto.timingSafeEqual` on buffers of different length -/
  | timingLengthMismatch
  /-- "out of bounds expiration time" -/
  | outOfBoundsExpiration
  /-- "Missing response source" -/
  | missingResponseSource
  /-- "Invalid source domain" -/
  | invalidSourceDomain
  /-- "Missing response destination" -/
  | missingResponseDestination
  /-- "Invalid destination address" -/
  | invalidDestinationAddress
  /-- "Missing request UUID" -/
  | missingRequestUuid
  /-- "Missing sessionInfo tag" -/
  | missingSessionInfoTag
  /-- "Session info hmac invalid" -/
  | sessionInfoHmacInvalid
  /-- "Invalid response" -/
  | invalidResponse
  /-- "Session not started" -/
  | sessionNotStarted
  /-- `throw new Error(plainText)` — the decoded remote reason text as message -/
  | errMessage (msg : Bytes)
  /-- "Unknown result Reason" -/
  | unknownResultReason
  /-- "Unknown error" -/
  | unknownError
  /-- "Invalid CarServer action result" -/
  | invalidActionResult
deriving DecidableEq, Repr

/-- Modelled from the spec: the numeric values of the protobuf enum
`Signatures.Tag` (the `proto/` files are loaded at runtime and are not part of
the repository's `src/`).  Only their relative order matters for the claims:
the spec requires metadata tags to be supplied in non-decreasing order and the
source adds them in the order signature-type, domain, personalization, epoch,
expires-at, counter, challenge. -/
def TAG_SIGNATURE_TYPE : Nat := 0

/-- Modelled from the spec: see `TAG_SIGNATURE_TYPE`. -/
def TAG_DOMAIN : Nat := 1

/-- Modelled from the spec: see `TAG_SIGNATURE_TYPE`. -/
def TAG_PERSONALIZATION : Nat := 2

/-- Modelled from the spec: see `TAG_SIGNATURE_TYPE`. -/
def TAG_EPOCH : Nat := 3

/-- Modelled from the spec: see `TAG_SIGNATURE_TYPE`. -/
def TAG_EXPIRES_AT : Nat := 4

/-- Modelled from the spec: see `TAG_SIGNATURE_TYPE`. -/
def TAG_COUNTER : Nat := 5

/-- Modelled from the spec: see `TAG_SIGNATURE_TYPE`. -/
def TAG_CHALLENGE : Nat := 6

/-- Modelled from the spec: the sentinel terminal tag (`signatures.Tag_TAG_END`);
its value 255 appears literally in `Signer.js` line 37. -/
def TAG_END : Nat := 255

/-- Modelled from the spec: value of `SignatureTypes.SIGNATURE_TYPE_HMAC`
from the runtime-loaded protobuf enum; used as a single metadata byte. -/
def SIGNATURE_TYPE_HMAC : Nat := 6

/-- Modelled from the spec: value of
`SignatureTypes.SIGNATURE_TYPE_HMAC_PERSONALIZED`; used as a single metadata byte. -/
def SIGNATURE_TYPE_HMAC_PERSONALIZED : Nat := 5

/-- Modelled from the spec: value of `Domain.DOMAIN_INFOTAINMENT` from the
runtime-loaded protobuf enum `UniversalMessage.Domain`. -/
def DOMAIN_INFOTAINMENT : Nat := 3

/-- UTF-8 bytes of the domain-separation label `'session info'`
(`Signer.js` line 78). -/
def sessionInfoLabel : Bytes :=
  [115, 101, 115, 115, 105, 111, 110, 32, 105, 110, 102, 111]

/-- UTF-8 bytes of the domain-separation label `'authenticated command'`
(`Signer.js` line 89). -/
def authenticatedCommandLabel : Bytes :=
  [97, 117, 116, 104, 101, 110, 116, 105, 99, 97, 116, 101, 100, 32,
   99, 111, 109, 109, 97, 110, 100]

/-- `AuthSession.newHMAC(label)` (`Signer.js` lines 61-65): derives the per-label
HMAC key in one KDF step, `hmac(sessionKey, label)`.  The returned context (an
HMAC keyed with that digest) is modelled by carrying this derived key to
`Metadata.checksum`. -/
def newHMACKey (hmac : Bytes → Bytes → Bytes) (sessionKey label : Bytes) : Bytes :=
  hmac sessionKey label

/-- The `Metadata` class of `Signer.js` (lines 11-41).  The hash `context` is
modelled as the list of bytes absorbed so far (`absorbed`); `last` is the
last tag added.  The source's `fields` map is written but never read, so it is
omitted. -/
structure Metadata where
  absorbed : Bytes
  last : Nat
deriving DecidableEq, Repr

/-- A fresh `Metadata` as built by `new Metadata(context)`: nothing absorbed,
`last = 0`. -/
def Metadata.init : Metadata := { absorbed := [], last := 0 }

/-- `Metadata.add(tag, value)` (`Signer.js` lines 18-28).  The checks happen in
source order: tag order first (throws even when `value` is null), then the
null no-op, then the 255-byte bound; on success the record
tag byte, length byte, raw value is absorbed and `last` becomes `tag`. -/
def Metadata.add (m : Metadata) (tag : Nat) (value : Option Bytes) :
    Except JsError Metadata :=
  if tag < m.last then .error .outOfOrderTag
  else match value with
    | none => .ok m
    | some v =>
      if v.length > 255 then .error .oversizedField
      else .ok { absorbed := m.absorbed ++ tag :: v.length :: v, last := tag }

/-- Big-endian 4-byte encoding written by `Buffer.writeUInt32BE`. -/
def uint32BE (v : Nat) : Bytes :=
  [v / 2 ^ 24 % 256, v / 2 ^ 16 % 256, v / 2 ^ 8 % 256, v % 256]

/-- `Metadata.addUint32(tag, value)` (`Signer.js` lines 30-34).
`Buffer.writeUInt32BE` throws a RangeError for a value outside `[0, 2^32)`
before `add` is reached. -/
def Metadata.addUint32 (m : Metadata) (tag v : Nat) : Except JsError Metadata :=
  if v < 2 ^ 32 then m.add tag (some (uint32BE v)) else .error .uint32Range

/-- The byte stream a `Metadata.checksum(message)` call digests: everything
absorbed so far, then the sentinel tag byte 255, then the message
(`Signer.js` lines 36-40). -/
def Metadata.checksumBytes (m : Metadata) (message : Bytes) : Bytes :=
  m.absorbed ++ TAG_END :: message

/-- `Metadata.checksum(message)` with the HMAC context made explicit: the
digest of `checksumBytes` under the context's key. -/
def Metadata.checksum (hmac : Bytes → Bytes → Bytes) (key : Bytes)
    (m : Metadata) (message : Bytes) : Bytes :=
  hmac key (m.checksumBytes message)

/-- A sequence of `Metadata.add` calls with present values, in call order. -/
def Metadata.addAll (m : Metadata) : List (Nat × Bytes) → Except JsError Metadata
  | [] => .ok m
  | (t, v) :: rest =>
    match m.add t (some v) with
    | .ok m' => m'.addAll rest
    | .error e => .error e

/-- The wire encoding of a metadata entry list: each entry contributes its
tag byte, length byte and raw value, in order. -/
def encodeEntries (entries : List (Nat × Bytes)) : Bytes :=
  entries.flatMap fun e => e.1 :: e.2.length :: e.2

theorem Metadata.addAll_absorbed (entries : List (Nat × Bytes)) :
    ∀ m : Metadata, List.Chain (fun a b => a ≤ b) m.last (entries.map Prod.fst) →
    (∀ p ∈ entries, p.2.length ≤ 255) →
    ∃ m', m.addAll entries = .ok m' ∧
      m'.absorbed = m.absorbed ++ encodeEntries entries := by
  induction entries with
  | nil =>
    intro m _ _
    exact ⟨m, rfl, by simp [encodeEntries]⟩
  | cons e rest ih =>
    intro m hchain hlen
    obtain ⟨t, v⟩ := e
    rw [List.map_cons, List.chain_cons] at hchain
    obtain ⟨hle, hchain'⟩ := hchain
    have hv : v.length ≤ 255 := hlen (t, v) (List.mem_cons_self _ _)
    have hadd : m.add t (some v) =
        .ok { absorbed := m.absorbed ++ t :: v.length :: v, last := t } := by
      simp only [Metadata.add]
      rw [if_neg (by omega), if_neg (by omega)]
    obtain ⟨m', hrun, habs⟩ :=
      ih { absorbed := m.absorbed ++ t :: v.length :: v, last := t } hchain'
        (fun p hp => hlen p (List.mem_cons_of_mem _ hp))
    refine ⟨m', ?_, ?_⟩
    · simpa [Metadata.addAll, hadd] using hrun
    · simp only [habs, encodeEntries, List.flatMap_cons]
      simp [encodeEntries]

theorem Metadata.add_ok (m : Metadata) (t : Nat) (v : Bytes)
    (h1 : m.last ≤ t) (h2 : v.length ≤ 255) :
    m.add t (some v) =
      .ok { absorbed := m.absorbed ++ t :: v.length :: v, last := t } := by
  simp [Metadata.add, Nat.not_lt.mpr h1, Nat.not_lt.mpr h2]

theorem exceptBind_ok {α β ε : Type} (a : α) (f : α → Except ε β) :
    (Except.ok a : Except ε α) >>= f = f a := rfl

theorem exceptBind_error {α β ε : Type} (e : ε) (f : α → Except ε β) :
    (Except.error e : Except ε α) >>= f = .error e := rfl

/-- C5: for metadata entries with non-decreasing tags and values of at most
255 bytes, each entry is absorbed as a (tag byte, length byte, raw value)
record in call order, and a final `checksum(payload)` digests exactly those
records followed by the sentinel byte 255 and the payload, returning the HMAC
digest under the context key.  The result is literally a function of
(key, label-derived key, entries, payload), so it is deterministic across
repeated runs. -/
theorem taggedChecksum_structure (hmac : Bytes → Bytes → Bytes) (key : Bytes)
    (entries : List (Nat × Bytes)) (payload : Bytes)
    (horder : List.Chain (fun a b => a ≤ b) 0 (entries.map Prod.fst))
    (hlen : ∀ p ∈ entries, p.2.length ≤ 255) :
    ∃ m, Metadata.init.addAll entries = .ok m ∧
      m.absorbed = encodeEntries entries ∧
      m.checksum hmac key payload =
        hmac key (encodeEntries entries ++ 255 :: payload) := by
  obtain ⟨m, hrun, habs⟩ := Metadata.addAll_absorbed entries Metadata.init horder hlen
  refine ⟨m, hrun, ?_, ?_⟩
  · simpa [Metadata.init] using habs
  · simp [Metadata.checksum, Metadata.checksumBytes, habs, Metadata.init, TAG_END]

/-- A concrete HMAC instance used only in witnesses: key concatenated with data. -/
def hmacConcat : Bytes → Bytes → Bytes := fun k d => k ++ d

/-- Witness for C5 at a concrete entry list and payload. -/
theorem taggedChecksum_structure_witness :
    ∃ m, Metadata.init.addAll [(0, [1]), (2, [3, 4])] = .ok m ∧
      m.absorbed = encodeEntries [(0, [1]), (2, [3, 4])] ∧
      m.checksum hmacConcat [7] [9] =
        hmacConcat [7] (encodeEntries [(0, [1]), (2, [3, 4])] ++ 255 :: [9]) :=
  taggedChecksum_structure hmacConcat [7] [(0, [1]), (2, [3, 4])] [9]
    (by norm_num [List.chain_cons]) (by decide)

/-- C6 counterexample: the out-of-order check precedes the null check in
`Metadata.add`, so adding an absent value with a tag smaller than the last one
throws `OutOfOrderTag` instead of being a no-op, refuting the claim's
unconditional "is a no-op when value is absent". -/
theorem metadata_add_null_not_noop :
    Metadata.add { absorbed := [], last := 1 } 0 none = .error .outOfOrderTag ∧
      Metadata.add { absorbed := [], last := 1 } 0 none ≠
        .ok { absorbed := [], last := 1 } := by
  constructor
  · decide
  · decide

/-- C6 amended: `add(tag, value)` fails with the out-of-order-tag error exactly
when `tag` is smaller than the last tag added (this check runs first, so it
fires even for an absent value); when `tag` is not smaller, an absent value is
a no-op; when `tag` is not smaller and the value is present, it fails with the
oversized-field error exactly when the value is longer than 255 bytes, and
otherwise succeeds — in particular a tag equal to the last tag is accepted. -/
theorem metadata_add_characterization (m : Metadata) (t : Nat) :
    (∀ value : Option Bytes,
      (m.add t value = .error .outOfOrderTag ↔ t < m.last)) ∧
    (m.last ≤ t → m.add t none = .ok m) ∧
    (m.last ≤ t → ∀ v : Bytes,
      (m.add t (some v) = .error .oversizedField ↔ 255 < v.length)) ∧
    (m.last ≤ t → ∀ v : Bytes, v.length ≤ 255 →
      m.add t (some v) =
        .ok { absorbed := m.absorbed ++ t :: v.length :: v, last := t }) := by
  refine ⟨?_, ?_, ?_, ?_⟩
  · intro value
    by_cases hlt : t < m.last
    · simp [Metadata.add, hlt]
    · cases value with
      | none => simp [Metadata.add, hlt]
      | some v =>
        by_cases hv : v.length > 255
        · simp [Metadata.add, hlt, hv]
        · simp [Metadata.add, hlt, hv]
  · intro h
    simp [Metadata.add, Nat.not_lt.mpr h]
  · intro h v
    by_cases hv : v.length > 255
    · simp [Metadata.add, Nat.not_lt.mpr h, hv]
    · simp only [Metadata.add, if_neg (Nat.not_lt.mpr h)]
      simp [hv]
  · intro h v hv
    simp [Metadata.add, Nat.not_lt.mpr h, Nat.not_lt.mpr hv]

/-- Witness for the amended C6 at a concrete metadata state: tag 2 equals the
last tag and is accepted; an absent value is a no-op; an oversized value of
256 bytes is rejected. -/
theorem metadata_add_characterization_witness :
    (Metadata.add { absorbed := [], last := 2 } 2 none =
        .error .outOfOrderTag ↔ 2 < 2) ∧
      Metadata.add { absorbed := [], last := 2 } 2 none =
        .ok { absorbed := [], last := 2 } ∧
      (Metadata.add { absorbed := [], last := 2 } 2 (some (List.replicate 256 0)) =
        .error .oversizedField ↔ 255 < (List.replicate 256 (0 : Nat)).length) ∧
      Metadata.add { absorbed := [], last := 2 } 2 (some [8]) =
        .ok { absorbed := [2, 1, 8], last := 2 } := by
  have h := metadata_add_characterization { absorbed := [], last := 2 } 2
  exact ⟨h.1 none, h.2.1 (by decide), h.2.2.1 (by decide) _,
    h.2.2.2 (by decide) [8] (by decide)⟩

/-- `(1 << 30)`, the `EPOCH_LENGTH` constant of `Signer.js` line 5. -/
def EPOCH_LENGTH : Int := 2 ^ 30

/-- `crypto.timingSafeEqual(a, b)`: throws a RangeError when the buffers have
different lengths, otherwise reports byte equality in constant time.  Only the
functional behaviour is modelled; the constant-time property is a timing
property outside a shallow embedding. -/
def timingSafeEqual (a b : Bytes) : Except JsError Bool :=
  if a.length = b.length then .ok (decide (a = b))
  else .error .timingLengthMismatch

/-- `KeyAgreement.derive` — the key-derivation part of the `AuthSession`
constructor (`Signer.js` lines 44-59): compute the ECDH shared point
(`privateKey.derive(publicKey.getPublic())`, modelled as the abstract scalar
multiplication `smul` applied to the private scalar and the peer point),
encode it (`Buffer.from(sharedSecret.toString(16), 'hex')`, modelled by the
abstract `encodeShared`), hash with SHA-1 (abstract `sha1`) and keep the
first 16 bytes (`hash.digest().subarray(0, 16)`). -/
def KeyAgreement.derive {Point : Type} (smul : Nat → Point → Point)
    (encodeShared : Point → Bytes) (sha1 : Bytes → Bytes)
    (priv : Nat) (peerPublic : Point) : Bytes :=
  (sha1 (encodeShared (smul priv peerPublic))).take 16

/-- The state a `Signer` instance owns (`Signer.js` lines 68-75):
`sessionKey` is the `AuthSession` symmetric key, `localPublic` the local
public key retained for signature blocks, `verifierName` the VIN,
`timeZero` the clock offset, `epoch` the 16-byte epoch, `counter` the
replay counter. -/
structure SignerState where
  sessionKey : Bytes
  localPublic : Bytes
  verifierName : Bytes
  timeZero : Int
  epoch : Bytes
  counter : Nat
deriving DecidableEq, Repr

/-- `Signer.validateSessionInfo(encodedSessionInfo, challenge, tag)`
(`Signer.js` lines 77-84): rebuild the tagged checksum in the
`'session info'` domain with entries (signature-type = HMAC),
(personalization = verifier name), (challenge), finish with the encoded
session info, and compare to the server tag via `timingSafeEqual`. -/
def Signer.validateSessionInfo (hmac : Bytes → Bytes → Bytes) (s : SignerState)
    (encodedSessionInfo challenge tag : Bytes) : Except JsError Bool := do
  let key := newHMACKey hmac s.sessionKey sessionInfoLabel
  let m ← Metadata.init.add TAG_SIGNATURE_TYPE (some [SIGNATURE_TYPE_HMAC])
  let m ← m.add TAG_PERSONALIZATION (some s.verifierName)
  let m ← m.add TAG_CHALLENGE (some challenge)
  timingSafeEqual (m.checksum hmac key encodedSessionInfo) tag

/-- The `HMAC_PersonalizedData` part of the signature block returned by
`Signer.generateSignature` (`Signer.js` lines 108-113). -/
structure HmacPersonalizedData where
  epoch : Bytes
  counter : Nat
  expiresAt : Int
  tag : Bytes
deriving DecidableEq, Repr

/-- The signature block returned by `Signer.generateSignature`
(`Signer.js` lines 104-114). -/
structure SignatureData where
  signerPublicKey : Bytes
  hmacPersonalizedData : HmacPersonalizedData
deriving DecidableEq, Repr

/-- `Signer.generateSignature(encodedPayload, domain, expiresIn)`
(`Signer.js` lines 86-115).  The counter is incremented first, before any
other work, so the updated state is returned on every path, including the
out-of-bounds-expiration throw.  `now` makes the `Date.now()` read explicit. -/
def Signer.generateSignature (hmac : Bytes → Bytes → Bytes) (s : SignerState)
    (encodedPayload : Bytes) (domain : Nat) (now expiresIn : Int) :
    SignerState × Except JsError SignatureData :=
  let s' : SignerState := { s with counter := s.counter + 1 }
  (s', do
    let key := newHMACKey hmac s'.sessionKey authenticatedCommandLabel
    let m ← Metadata.init.add TAG_SIGNATURE_TYPE
      (some [SIGNATURE_TYPE_HMAC_PERSONALIZED])
    let m ← m.add TAG_DOMAIN (some [domain])
    let m ← m.add TAG_PERSONALIZATION (some s'.verifierName)
    let expiresAt : Int := now + expiresIn - s'.timeZero
    if expiresAt > EPOCH_LENGTH ∨ expiresAt < 0 then
      throw .outOfBoundsExpiration
    let m ← m.add TAG_EPOCH (some s'.epoch)
    let m ← m.addUint32 TAG_EXPIRES_AT expiresAt.toNat
    let m ← m.addUint32 TAG_COUNTER s'.counter
    pure { signerPublicKey := s'.localPublic
         , hmacPersonalizedData :=
             { epoch := s'.epoch
             , counter := s'.counter
             , expiresAt := expiresAt
             , tag := m.checksum hmac key encodedPayload } })

/-- A sequence of `generateSignature` calls on one signer, threading the
state; returns the final state and the list of counter values consumed
(the incremented value used by each call), whether the call succeeded or not. -/
def runSignatures (hmac : Bytes → Bytes → Bytes) (s : SignerState) :
    List (Bytes × Nat × Int × Int) → SignerState × List Nat
  | [] => (s, [])
  | (p, d, now, ttl) :: rest =>
    let step := Signer.generateSignature hmac s p d now ttl
    let next := runSignatures hmac step.1 rest
    (next.1, step.1.counter :: next.2)

theorem exceptThrow {α : Type} (e : JsError) :
    (throw e : Except JsError α) = .error e := rfl

theorem uint32BE_length (v : Nat) : (uint32BE v).length = 4 := rfl

theorem exceptPure_bind {α β ε : Type} (a : α) (f : α → Except ε β) :
    (pure a : Except ε α) >>= f = f a := rfl

theorem generateSignature_fst (hmac : Bytes → Bytes → Bytes) (s : SignerState)
    (p : Bytes) (d : Nat) (now ttl : Int) :
    (Signer.generateSignature hmac s p d now ttl).1 =
      { s with counter := s.counter + 1 } := rfl

theorem runSignatures_consumed (hmac : Bytes → Bytes → Bytes)
    (calls : List (Bytes × Nat × Int × Int)) :
    ∀ s : SignerState,
    (runSignatures hmac s calls).2 =
      (List.range calls.length).map (fun i => s.counter + 1 + i) := by
  induction calls with
  | nil => intro s; simp [runSignatures]
  | cons c rest ih =>
    intro s
    obtain ⟨p, d, now, ttl⟩ := c
    simp only [runSignatures, generateSignature_fst, ih, List.length_cons,
      List.range_succ_eq_map, List.map_cons, List.map_map]
    congr 1
    apply List.map_congr_left
    intro i _
    simp only [Function.comp_apply]
    omega

/-- C2: the replay counter is incremented first in every `generateSignature`
call, before any metadata work or the expiry check, so the updated state is
`counter + 1` on every path including failing ones; across any sequence of
calls on one signer the consumed counter values are `counter + 1, counter + 2,
…`, strictly increasing and never reset. -/
theorem generateSignature_counter_strictly_increasing
    (hmac : Bytes → Bytes → Bytes) (s : SignerState)
    (calls : List (Bytes × Nat × Int × Int)) :
    (∀ p d now ttl,
      (Signer.generateSignature hmac s p d now ttl).1.counter = s.counter + 1) ∧
    (runSignatures hmac s calls).2 =
      (List.range calls.length).map (fun i => s.counter + 1 + i) ∧
    (runSignatures hmac s calls).2.Pairwise (fun a b => a < b) := by
  refine ⟨fun p d now ttl => rfl, runSignatures_consumed hmac calls s, ?_⟩
  rw [runSignatures_consumed hmac calls s, List.pairwise_map]
  exact (List.pairwise_lt_range _).imp (fun h => by omega)

/-- Full evaluation of `generateSignature` for a signer with a well-formed
verifier name and epoch and a counter still in `uint32` range: the call fails
with the out-of-bounds-expiration error exactly when the computed expiry is
above `EPOCH_LENGTH` or negative, and otherwise returns the signature block
whose tag digests the six metadata records, the sentinel byte and the payload. -/
theorem generateSignature_eval (hmac : Bytes → Bytes → Bytes) (s : SignerState)
    (p : Bytes) (d : Nat) (now ttl : Int)
    (hname : s.verifierName.length ≤ 255) (hepoch : s.epoch.length ≤ 255)
    (hctr : s.counter + 1 < 2 ^ 32) :
    (Signer.generateSignature hmac s p d now ttl).2 =
      if now + ttl - s.timeZero > EPOCH_LENGTH ∨ now + ttl - s.timeZero < 0 then
        .error .outOfBoundsExpiration
      else
        .ok { signerPublicKey := s.localPublic
            , hmacPersonalizedData :=
                { epoch := s.epoch
                , counter := s.counter + 1
                , expiresAt := now + ttl - s.timeZero
                , tag := hmac (hmac s.sessionKey authenticatedCommandLabel)
                    (encodeEntries
                      [(TAG_SIGNATURE_TYPE, [SIGNATURE_TYPE_HMAC_PERSONALIZED]),
                       (TAG_DOMAIN, [d]),
                       (TAG_PERSONALIZATION, s.verifierName),
                       (TAG_EPOCH, s.epoch),
                       (TAG_EXPIRES_AT, uint32BE (now + ttl - s.timeZero).toNat),
                       (TAG_COUNTER, uint32BE (s.counter + 1))] ++
                      TAG_END :: p) } } := by
  have h1 : Metadata.init.add TAG_SIGNATURE_TYPE
      (some [SIGNATURE_TYPE_HMAC_PERSONALIZED]) =
      .ok ⟨[0, 1, 5], 0⟩ := by decide
  have h2 : (⟨[0, 1, 5], 0⟩ : Metadata).add TAG_DOMAIN (some [d]) =
      .ok ⟨[0, 1, 5, 1, 1, d], 1⟩ := by
    rw [Metadata.add_ok _ _ _ (by decide) (by simp)]
    rfl
  have h3 : (⟨[0, 1, 5, 1, 1, d], 1⟩ : Metadata).add TAG_PERSONALIZATION
      (some s.verifierName) =
      .ok ⟨[0, 1, 5, 1, 1, d] ++
        TAG_PERSONALIZATION :: s.verifierName.length :: s.verifierName,
        TAG_PERSONALIZATION⟩ := by
    rw [Metadata.add_ok _ _ _ (by show (1 : Nat) ≤ TAG_PERSONALIZATION; decide)
      hname]
  by_cases hbad : now + ttl - s.timeZero > EPOCH_LENGTH ∨ now + ttl - s.timeZero < 0
  · simp only [Signer.generateSignature, h1, h2, h3, exceptBind_ok, if_pos hbad,
      exceptThrow, exceptBind_error]
  · have hx1 : now + ttl - s.timeZero ≤ 2 ^ 30 := by
      simp only [EPOCH_LENGTH] at hbad; omega
    have hxn : (now + ttl - s.timeZero).toNat < 2 ^ 32 := by omega
    have h4 : (⟨[0, 1, 5, 1, 1, d] ++
        TAG_PERSONALIZATION :: s.verifierName.length :: s.verifierName,
        TAG_PERSONALIZATION⟩ : Metadata).add TAG_EPOCH (some s.epoch) =
        .ok ⟨([0, 1, 5, 1, 1, d] ++
          TAG_PERSONALIZATION :: s.verifierName.length :: s.verifierName) ++
          TAG_EPOCH :: s.epoch.length :: s.epoch, TAG_EPOCH⟩ := by
      rw [Metadata.add_ok _ _ _ (by show (2 : Nat) ≤ TAG_EPOCH; decide) hepoch]
    have h5 : (⟨([0, 1, 5, 1, 1, d] ++
        TAG_PERSONALIZATION :: s.verifierName.length :: s.verifierName) ++
        TAG_EPOCH :: s.epoch.length :: s.epoch, TAG_EPOCH⟩ : Metadata).addUint32
        TAG_EXPIRES_AT (now + ttl - s.timeZero).toNat =
        .ok ⟨(([0, 1, 5, 1, 1, d] ++
          TAG_PERSONALIZATION :: s.verifierName.length :: s.verifierName) ++
          TAG_EPOCH :: s.epoch.length :: s.epoch) ++
          TAG_EXPIRES_AT :: 4 :: uint32BE (now + ttl - s.timeZero).toNat,
          TAG_EXPIRES_AT⟩ := by
      unfold Metadata.addUint32
      rw [if_pos hxn, Metadata.add_ok _ _ _
        (by show (3 : Nat) ≤ TAG_EXPIRES_AT; decide) (by simp [uint32BE])]
      simp [uint32BE]
    have h6 : (⟨(([0, 1, 5, 1, 1, d] ++
        TAG_PERSONALIZATION :: s.verifierName.length :: s.verifierName) ++
        TAG_EPOCH :: s.epoch.length :: s.epoch) ++
        TAG_EXPIRES_AT :: 4 :: uint32BE (now + ttl - s.timeZero).toNat,
        TAG_EXPIRES_AT⟩ : Metadata).addUint32 TAG_COUNTER (s.counter + 1) =
        .ok ⟨((([0, 1, 5, 1, 1, d] ++
          TAG_PERSONALIZATION :: s.verifierName.length :: s.verifierName) ++
          TAG_EPOCH :: s.epoch.length :: s.epoch) ++
          TAG_EXPIRES_AT :: 4 :: uint32BE (now + ttl - s.timeZero).toNat) ++
          TAG_COUNTER :: 4 :: uint32BE (s.counter + 1), TAG_COUNTER⟩ := by
      unfold Metadata.addUint32
      rw [if_pos hctr, Metadata.add_ok _ _ _
        (by show (4 : Nat) ≤ TAG_COUNTER; decide) (by simp [uint32BE])]
      simp [uint32BE]
    simp only [Signer.generateSignature, h1, h2, h3, h4, h5, h6, exceptBind_ok,
      if_neg hbad, exceptPure_bind]
    simp [Metadata.checksum, Metadata.checksumBytes, newHMACKey, encodeEntries,
      uint32BE_length, TAG_SIGNATURE_TYPE, TAG_DOMAIN, TAG_PERSONALIZATION,
      TAG_EPOCH, TAG_EXPIRES_AT, TAG_COUNTER, TAG_END,
      SIGNATURE_TYPE_HMAC_PERSONALIZED]
    rfl

/-- A trivial concrete HMAC instance (constant empty digest) used only to
instantiate counterexamples and witnesses. -/
def hmacZero : Bytes → Bytes → Bytes := fun _ _ => []

/-- A concrete signer state used in counterexamples and witnesses: clock
offset 0, VIN bytes "VIN", all-zero epoch, counter 7. -/
def signerA : SignerState :=
  { sessionKey := [], localPublic := [9], verifierName := [86, 73, 78],
    timeZero := 0, epoch := List.replicate 16 0, counter := 7 }

/-- C1 counterexample: with clock offset 0, calling `generateSignature` at
`now = 2^30` with ttl 0 makes the computed `expiresAt` exactly `2^30`, which
the claim says must fail with the expiry-out-of-range error; the source checks
`expiresAt > EPOCH_LENGTH` (strict), so the call succeeds. -/
theorem generateSignature_epoch_length_accepted :
    (Signer.generateSignature hmacZero signerA [] 3 1073741824 0).2 =
      .ok { signerPublicKey := [9]
          , hmacPersonalizedData :=
              { epoch := List.replicate 16 0, counter := 8
              , expiresAt := 1073741824, tag := [] } } := by decide

/-- C1 amended: for valid inputs, `generateSignature` rejects with the
expiry-out-of-range error exactly when `expiresAt = now + ttl − clockOffset`
is negative or strictly greater than `2^30`; both `2^30 − 1` and `2^30`
succeed (the source bound is `>`, not `≥`), consuming the incremented
counter. -/
theorem generateSignature_expiry_characterization
    (hmac : Bytes → Bytes → Bytes) (s : SignerState) (p : Bytes) (d : Nat)
    (now ttl : Int)
    (hname : s.verifierName.length ≤ 255) (hepoch : s.epoch.length ≤ 255)
    (hctr : s.counter + 1 < 2 ^ 32) :
    ((Signer.generateSignature hmac s p d now ttl).2 =
        .error .outOfBoundsExpiration ↔
      (now + ttl - s.timeZero < 0 ∨ 2 ^ 30 < now + ttl - s.timeZero)) ∧
    (0 ≤ now + ttl - s.timeZero → now + ttl - s.timeZero ≤ 2 ^ 30 →
      ∃ sig : SignatureData,
        (Signer.generateSignature hmac s p d now ttl).2 = .ok sig ∧
        sig.hmacPersonalizedData.expiresAt = now + ttl - s.timeZero ∧
        sig.hmacPersonalizedData.counter = s.counter + 1) := by
  rw [generateSignature_eval hmac s p d now ttl hname hepoch hctr]
  constructor
  · by_cases hbad :
      now + ttl - s.timeZero > EPOCH_LENGTH ∨ now + ttl - s.timeZero < 0
    · rw [if_pos hbad]
      simp only [EPOCH_LENGTH] at hbad
      exact iff_of_true rfl (by omega)
    · rw [if_neg hbad]
      simp only [EPOCH_LENGTH] at hbad
      refine iff_of_false (by simp) (by omega)
  · intro hge hle
    rw [if_neg (by simp only [EPOCH_LENGTH]; omega)]
    exact ⟨_, rfl, rfl, rfl⟩

/-- Witness for the amended C1 at a concrete signer and clock: `expiresAt`
is 105, inside the bound, so the call succeeds. -/
theorem generateSignature_expiry_characterization_witness :
    ((Signer.generateSignature hmacZero signerA [] 3 100 5).2 =
        .error .outOfBoundsExpiration ↔
      ((100 : Int) + 5 - signerA.timeZero < 0 ∨
        2 ^ 30 < (100 : Int) + 5 - signerA.timeZero)) ∧
    (0 ≤ (100 : Int) + 5 - signerA.timeZero →
      (100 : Int) + 5 - signerA.timeZero ≤ 2 ^ 30 →
      ∃ sig : SignatureData,
        (Signer.generateSignature hmacZero signerA [] 3 100 5).2 = .ok sig ∧
        sig.hmacPersonalizedData.expiresAt = (100 : Int) + 5 - signerA.timeZero ∧
        sig.hmacPersonalizedData.counter = signerA.counter + 1) :=
  generateSignature_expiry_characterization hmacZero signerA [] 3 100 5
    (by decide) (by decide) (by decide)

/-- C7: key derivation computes the ECDH shared point (`smul priv peerPublic`),
encodes it, hashes with the legacy one-way hash and truncates to 16 bytes; as
a pure function of its inputs it is deterministic, and under the
scalar-multiplication law `a·(b·P) = (a*b)·P` it is symmetric:
`derive(a, b·G) = derive(b, a·G)`. -/
theorem keyAgreement_symmetric {Point : Type} (smul : Nat → Point → Point)
    (encodeShared : Point → Bytes) (sha1 : Bytes → Bytes) (G : Point)
    (hsmul : ∀ a b P, smul a (smul b P) = smul (a * b) P) (a b : Nat) :
    KeyAgreement.derive smul encodeShared sha1 a (smul b G) =
      KeyAgreement.derive smul encodeShared sha1 b (smul a G) ∧
    KeyAgreement.derive smul encodeShared sha1 a (smul b G) =
      (sha1 (encodeShared (smul (a * b) G))).take 16 := by
  unfold KeyAgreement.derive
  rw [hsmul a b G, hsmul b a G, Nat.mul_comm b a]
  exact ⟨rfl, rfl⟩

/-- Witness for C7 on the multiplicative model of a cyclic group
(points are naturals, scalar action is multiplication, generator 1). -/
theorem keyAgreement_symmetric_witness :
    KeyAgreement.derive (fun a P => a * P) (fun p => [p % 256]) id 2 (3 * 1) =
      KeyAgreement.derive (fun a P => a * P) (fun p => [p % 256]) id 3 (2 * 1) ∧
    KeyAgreement.derive (fun a P => a * P) (fun p => [p % 256]) id 2 (3 * 1) =
      (id [2 * 3 * 1 % 256]).take 16 :=
  keyAgreement_symmetric (fun a P => a * P) (fun p => [p % 256]) id 1
    (fun a b P => (Nat.mul_assoc a b P).symm) 2 3

/-- The decoded `Signatures.SessionInfo` message (`CarServer.js` line 46,
fields read by the `Signer` constructor). -/
structure SessionInfo where
  publicKey : Bytes
  clockTime : Int
  epoch : Bytes
  counter : Nat
deriving DecidableEq, Repr

/-- One destination of a routable message; optional fields model the
`hasOwnProperty` checks of `CarServer.#sendRequest`. -/
structure Destination where
  domain : Option Nat
  routingAddress : Option Bytes
deriving DecidableEq, Repr

/-- The `sessionInfoTag` member of a response's `signatureData`
(`CarServer.js` line 44). -/
structure SessionInfoTag where
  tag : Option Bytes
deriving DecidableEq, Repr

/-- The `signatureData` of an inbound response; only `sessionInfoTag` is
inspected by the router. -/
structure RespSignatureData where
  sessionInfoTag : Option SessionInfoTag
deriving DecidableEq, Repr

/-- An inbound `UniversalMessage.RoutableMessage` as the router inspects it. -/
structure RoutableMessage where
  fromDestination : Option Destination
  toDestination : Option Destination
  requestUuid : Option Bytes
  sessionInfo : Option Bytes
  signatureData : Option RespSignatureData
  protobufMessageAsBytes : Option Bytes
deriving DecidableEq, Repr

/-- The fields of an outbound request that response validation reads:
`req.toDestination.domain` and `req.fromDestination.routingAddress`
(`CarServer.js` lines 32 and 37); the request uuid is sent but never compared. -/
structure Req where
  toDomain : Nat
  fromAddress : Bytes
deriving DecidableEq, Repr

/-- The `resultReason` of a decoded `CarServer.Response` action status. -/
structure ResultReason where
  plainText : Option Bytes
deriving DecidableEq, Repr

/-- The `actionStatus` of a decoded `CarServer.Response`. -/
structure ActionStatus where
  result : Option Nat
  resultReason : Option ResultReason
deriving DecidableEq, Repr

/-- A decoded `CarServer.Response` as `#requestAction` inspects it. -/
structure CarResponse where
  actionStatus : Option ActionStatus
deriving DecidableEq, Repr

/-- Modelled from the spec: value of `OPERATIONSTATUS_OK` in the
runtime-loaded protobuf enum `CarServer.OperationStatus_E`. -/
def OPERATIONSTATUS_OK : Nat := 0

/-- Modelled from the spec: value of `OPERATIONSTATUS_ERROR` in the
runtime-loaded protobuf enum `CarServer.OperationStatus_E`. -/
def OPERATIONSTATUS_ERROR : Nat := 1

/-- The collaborators and constructor fields of a `CarServer` instance
(`CarServer.js` lines 17-22); crypto primitives and protobuf codecs are
abstract function parameters, the transport (`fleetApi`) is out of scope and
replaced by passing the decoded response explicitly. -/
structure CarCtx (Point : Type) where
  hmac : Bytes → Bytes → Bytes
  sha1 : Bytes → Bytes
  smul : Nat → Point → Point
  decodePoint : Bytes → Point
  encodeShared : Point → Bytes
  decodeSessionInfo : Bytes → SessionInfo
  decodeCarResponse : Bytes → CarResponse
  privateScalar : Nat
  publicKey : Bytes
  vin : Bytes

/-- The `Signer` constructor (`Signer.js` lines 69-75): session key via
`KeyAgreement.derive` from the decoded peer public key, clock offset
`now − clockTime`, first 16 bytes of the epoch, starting counter. -/
def Signer.mk {Point : Type} (ctx : CarCtx Point) (si : SessionInfo)
    (now : Int) : SignerState :=
  { sessionKey := KeyAgreement.derive ctx.smul ctx.encodeShared ctx.sha1
      ctx.privateScalar (ctx.decodePoint si.publicKey)
  , localPublic := ctx.publicKey
  , verifierName := ctx.vin
  , timeZero := now - si.clockTime
  , epoch := si.epoch.take 16
  , counter := si.counter }

/-- The response-provenance checks of `CarServer.#sendRequest`
(`CarServer.js` lines 29-40), in source order; on success the response's
`requestUuid` is returned (presence is checked, the value is never compared
against the uuid that was sent). -/
def validateResponse (req : Req) (res : RoutableMessage) :
    Except JsError Bytes :=
  match res.fromDestination with
  | none => .error .missingResponseSource
  | some fd =>
    match fd.domain with
    | none => .error .invalidSourceDomain
    | some dom =>
      if dom ≠ req.toDomain then .error .invalidSourceDomain
      else match res.toDestination with
        | none => .error .missingResponseDestination
        | some td =>
          match td.routingAddress with
          | none => .error .invalidDestinationAddress
          | some addr =>
            if addr ≠ req.fromAddress then .error .invalidDestinationAddress
            else match res.requestUuid with
              | none => .error .missingRequestUuid
              | some u => .ok u

/-- What `#sendRequest` returns on success: the decoded session info (session
update branch) or the decoded command response payload. -/
inductive SendResult where
  | sessionInfo (si : SessionInfo)
  | carResponse (r : CarResponse)
deriving DecidableEq, Repr

/-- `CarServer.#sendRequest` (`CarServer.js` lines 24-61) after the transport
round trip, on the decoded response: provenance validation first, then the
session-update branch when both `sessionInfo` and `signatureData` are present
(constructing a new `Signer` and validating the handshake tag), otherwise the
payload branch.  Returns the updated `signer` field with the result.  When
`validateSessionInfo` returns false, the signer is discarded (set back to
none) and the hmac-invalid error raised; when it throws, the freshly
constructed signer stays installed, as in the source, where the assignment on
line 47 precedes the call on line 48. -/
def sendRequest {Point : Type} (ctx : CarCtx Point)
    (signer : Option SignerState) (req : Req) (res : RoutableMessage)
    (now : Int) : Option SignerState × Except JsError SendResult :=
  match validateResponse req res with
  | .error e => (signer, .error e)
  | .ok u =>
    match res.sessionInfo, res.signatureData with
    | some siBytes, some sd =>
      match sd.sessionInfoTag with
      | none => (signer, .error .missingSessionInfoTag)
      | some sit =>
        match sit.tag with
        | none => (signer, .error .missingSessionInfoTag)
        | some tagBytes =>
          let si := ctx.decodeSessionInfo siBytes
          let newSigner := Signer.mk ctx si now
          match Signer.validateSessionInfo ctx.hmac newSigner siBytes u
              tagBytes with
          | .error e => (some newSigner, .error e)
          | .ok true => (some newSigner, .ok (.sessionInfo si))
          | .ok false => (none, .error .sessionInfoHmacInvalid)
    | _, _ =>
      match res.protobufMessageAsBytes with
      | some pb => (signer, .ok (.carResponse (ctx.decodeCarResponse pb)))
      | none => (signer, .error .invalidResponse)

/-- `CarServer.startSession` (`CarServer.js` lines 63-70): one `#sendRequest`
with an infotainment-domain handshake request; the result value is discarded. -/
def startSession {Point : Type} (ctx : CarCtx Point)
    (signer : Option SignerState) (fromAddress : Bytes)
    (res : RoutableMessage) (now : Int) :
    Option SignerState × Except JsError Unit :=
  let r := sendRequest ctx signer
    { toDomain := DOMAIN_INFOTAINMENT, fromAddress := fromAddress } res now
  (r.1, r.2.map fun _ => ())

/-- `CarServer.#decodeError` (`CarServer.js` lines 72-75): the plain-text
reason, or a throw when there is none. -/
def decodeError (resultReason : ResultReason) : Except JsError Bytes :=
  match resultReason.plainText with
  | some t => .ok t
  | none => .error .unknownResultReason

/-- The status-inspection tail of `CarServer.#requestAction`
(`CarServer.js` lines 90-103): an absent `actionStatus` or absent `result`
falls through and returns normally; OK returns normally; ERROR surfaces the
decoded plain-text reason as the error message (or the unknown-result-reason
error from `#decodeError`, or the generic unknown error when no reason is
present); any other status value is the invalid-action-result error. -/
def handleActionStatus (response : CarResponse) : Except JsError Unit :=
  match response.actionStatus with
  | none => .ok ()
  | some st =>
    match st.result with
    | none => .ok ()
    | some r =>
      if r = OPERATIONSTATUS_OK then .ok ()
      else if r = OPERATIONSTATUS_ERROR then
        match st.resultReason with
        | none => .error .unknownError
        | some rr =>
          match decodeError rr with
          | .ok txt => .error (.errMessage txt)
          | .error e => .error e
      else .error .invalidActionResult

/-- `CarServer.#requestAction` (`CarServer.js` lines 77-103): refuse when no
signer is installed, before anything else — no counter value is consumed and
nothing is sent; otherwise sign the encoded action with ttl 5 (the counter
increment survives a signature failure), perform the round trip via
`#sendRequest` and inspect the decoded response's action status.  The middle
component is the transport-send trace (the encoded action payload of each
dispatched envelope). -/
def requestAction {Point : Type} (ctx : CarCtx Point)
    (signer : Option SignerState) (encodedPayload : Bytes)
    (fromAddress : Bytes) (res : RoutableMessage) (now : Int) :
    Option SignerState × List Bytes × Except JsError Unit :=
  match signer with
  | none => (none, [], .error .sessionNotStarted)
  | some s =>
    let step := Signer.generateSignature ctx.hmac s encodedPayload
      DOMAIN_INFOTAINMENT now 5
    match step.2 with
    | .error e => (some step.1, [], .error e)
    | .ok _ =>
      let send := sendRequest ctx (some step.1)
        { toDomain := DOMAIN_INFOTAINMENT, fromAddress := fromAddress } res now
      match send.2 with
      | .error e => (send.1, [encodedPayload], .error e)
      | .ok (.sessionInfo _) => (send.1, [encodedPayload], .ok ())
      | .ok (.carResponse r) => (send.1, [encodedPayload], handleActionStatus r)

theorem timingSafeEqual_eq_length (a b : Bytes) (h : a.length = b.length) :
    timingSafeEqual a b = .ok (decide (a = b)) := by
  simp [timingSafeEqual, h]

/-- The tag `validateSessionInfo` recomputes: the digest, under the
session-info label key, of the three metadata records, the sentinel and the
encoded session info. -/
def expectedSessionTag (hmac : Bytes → Bytes → Bytes) (s : SignerState)
    (esi challenge : Bytes) : Bytes :=
  hmac (hmac s.sessionKey sessionInfoLabel)
    (encodeEntries
      [(TAG_SIGNATURE_TYPE, [SIGNATURE_TYPE_HMAC]),
       (TAG_PERSONALIZATION, s.verifierName),
       (TAG_CHALLENGE, challenge)] ++ TAG_END :: esi)

theorem validateSessionInfo_eval (hmac : Bytes → Bytes → Bytes)
    (s : SignerState) (esi challenge tag : Bytes)
    (hname : s.verifierName.length ≤ 255) (hch : challenge.length ≤ 255) :
    Signer.validateSessionInfo hmac s esi challenge tag =
      timingSafeEqual (expectedSessionTag hmac s esi challenge) tag := by
  have h1 : Metadata.init.add TAG_SIGNATURE_TYPE (some [SIGNATURE_TYPE_HMAC]) =
      .ok ⟨[0, 1, 6], 0⟩ := by decide
  have h2 : (⟨[0, 1, 6], 0⟩ : Metadata).add TAG_PERSONALIZATION
      (some s.verifierName) =
      .ok ⟨[0, 1, 6] ++
        TAG_PERSONALIZATION :: s.verifierName.length :: s.verifierName,
        TAG_PERSONALIZATION⟩ := by
    rw [Metadata.add_ok _ _ _ (by decide) hname]
  have h3 : (⟨[0, 1, 6] ++
      TAG_PERSONALIZATION :: s.verifierName.length :: s.verifierName,
      TAG_PERSONALIZATION⟩ : Metadata).add TAG_CHALLENGE (some challenge) =
      .ok ⟨([0, 1, 6] ++
        TAG_PERSONALIZATION :: s.verifierName.length :: s.verifierName) ++
        TAG_CHALLENGE :: challenge.length :: challenge, TAG_CHALLENGE⟩ := by
    rw [Metadata.add_ok _ _ _ (by show (2 : Nat) ≤ TAG_CHALLENGE; decide) hch]
  simp only [Signer.validateSessionInfo, h1, h2, h3, exceptBind_ok]
  congr 1
  simp [Metadata.checksum, Metadata.checksumBytes, newHMACKey,
    expectedSessionTag, encodeEntries, TAG_SIGNATURE_TYPE, TAG_PERSONALIZATION,
    TAG_CHALLENGE, TAG_END, SIGNATURE_TYPE_HMAC]

/-- C3: a server tag of the correct length that differs from the recomputed
checksum makes `validateSessionInfo` return false — a value, not a throw
(only malformed inputs throw, e.g. a wrong-length tag); and whenever the
handshake-update branch of `#sendRequest` sees the validation return false,
the freshly installed signer is discarded (the signer field is none) and the
hmac-invalid error surfaces, leaving the session unestablished. -/
theorem validateSessionInfo_mismatch_teardown :
    (∀ (hmac : Bytes → Bytes → Bytes) (s : SignerState)
       (esi challenge tag : Bytes),
      s.verifierName.length ≤ 255 → challenge.length ≤ 255 →
      tag.length = (expectedSessionTag hmac s esi challenge).length →
      tag ≠ expectedSessionTag hmac s esi challenge →
      Signer.validateSessionInfo hmac s esi challenge tag = .ok false) ∧
    (∀ {Point : Type} (ctx : CarCtx Point) (signer : Option SignerState)
       (req : Req) (res : RoutableMessage) (now : Int)
       (u siBytes tagBytes : Bytes) (sit : SessionInfoTag)
       (sd : RespSignatureData),
      validateResponse req res = .ok u →
      res.sessionInfo = some siBytes → res.signatureData = some sd →
      sd.sessionInfoTag = some sit → sit.tag = some tagBytes →
      Signer.validateSessionInfo ctx.hmac
        (Signer.mk ctx (ctx.decodeSessionInfo siBytes) now) siBytes u
        tagBytes = .ok false →
      sendRequest ctx signer req res now =
        (none, .error .sessionInfoHmacInvalid)) := by
  constructor
  · intro hmac s esi challenge tag hname hch hlen hne
    rw [validateSessionInfo_eval hmac s esi challenge tag hname hch,
      timingSafeEqual_eq_length _ _ hlen.symm]
    simp [Ne.symm hne]
  · intro Point ctx signer req res now u siBytes tagBytes sit sd
      hv hsi hsd hsit htag hval
    simp only [sendRequest, hv, hsi, hsd, hsit, htag, hval]

/-- Witness data: an HMAC instance with constant two-byte digest. -/
def hmacTwo : Bytes → Bytes → Bytes := fun _ _ => [0, 0]

/-- A concrete context over the multiplicative-naturals point model, with
`hmacTwo` digests. -/
def ctxB : CarCtx Nat :=
  { hmac := hmacTwo, sha1 := id, smul := fun a P => a * P,
    decodePoint := fun _ => 1, encodeShared := fun p => [p % 256],
    decodeSessionInfo := fun _ => ⟨[], 0, List.replicate 16 0, 0⟩,
    decodeCarResponse := fun _ => ⟨none⟩,
    privateScalar := 2, publicKey := [9], vin := [86, 73, 78] }

/-- A handshake response with valid provenance whose server tag has the
digest length but the wrong value. -/
def resBadTag : RoutableMessage :=
  { fromDestination := some ⟨some 3, none⟩,
    toDestination := some ⟨none, some [1]⟩,
    requestUuid := some [2],
    sessionInfo := some [],
    signatureData := some ⟨some ⟨some [9, 9]⟩⟩,
    protobufMessageAsBytes := none }

/-- Witness for C3: a wrong two-byte tag is rejected with `false`, and the
router tears the signer down. -/
theorem validateSessionInfo_mismatch_teardown_witness :
    Signer.validateSessionInfo hmacTwo signerA [] [] [0, 1] = .ok false ∧
    sendRequest ctxB none { toDomain := 3, fromAddress := [1] } resBadTag 0 =
      (none, .error .sessionInfoHmacInvalid) :=
  ⟨validateSessionInfo_mismatch_teardown.1 hmacTwo signerA [] [] [0, 1]
      (by decide) (by decide) (by decide) (by decide),
   validateSessionInfo_mismatch_teardown.2 ctxB none
      { toDomain := 3, fromAddress := [1] } resBadTag 0 [2] [] [9, 9]
      ⟨some [9, 9]⟩ ⟨some ⟨some [9, 9]⟩⟩ (by decide) rfl rfl rfl rfl
      (by decide)⟩

/-- C4: the three provenance invariants, in source order: `validateResponse`
succeeds exactly when the response's source domain equals the request's
destination domain, the response's destination routing address equals the
request's source routing address, and a request identifier is present — with
no constraint on the identifier's value; any violation surfaces its error from
`#sendRequest` with the signer untouched; and a handshake response whose
source domain differs from the infotainment domain makes `startSession` fail
with the signer still null. -/
theorem response_validation_characterization :
    (∀ (req : Req) (res : RoutableMessage) (u : Bytes),
      validateResponse req res = .ok u ↔
        (∃ fd : Destination, res.fromDestination = some fd ∧
          fd.domain = some req.toDomain) ∧
        (∃ td : Destination, res.toDestination = some td ∧
          td.routingAddress = some req.fromAddress) ∧
        res.requestUuid = some u) ∧
    (∀ {Point : Type} (ctx : CarCtx Point) (signer : Option SignerState)
       (req : Req) (res : RoutableMessage) (now : Int) (e : JsError),
      validateResponse req res = .error e →
      sendRequest ctx signer req res now = (signer, .error e)) ∧
    (∀ {Point : Type} (ctx : CarCtx Point) (fromAddress : Bytes)
       (res : RoutableMessage) (now : Int) (fd : Destination) (dom : Nat),
      res.fromDestination = some fd → fd.domain = some dom →
      dom ≠ DOMAIN_INFOTAINMENT →
      startSession ctx none fromAddress res now =
        (none, .error .invalidSourceDomain)) := by
  refine ⟨?_, ?_, ?_⟩
  · intro req res u
    obtain ⟨fd0, td0, u0, si0, sd0, pb0⟩ := res
    cases fd0 with
    | none => simp [validateResponse]
    | some fd =>
      obtain ⟨dom0, fdaddr⟩ := fd
      cases dom0 with
      | none => simp [validateResponse]
      | some dom =>
        by_cases hdom : dom = req.toDomain
        · subst hdom
          cases td0 with
          | none => simp [validateResponse]
          | some td =>
            obtain ⟨tddom, addr0⟩ := td
            cases addr0 with
            | none => simp [validateResponse]
            | some addr =>
              by_cases haddr : addr = req.fromAddress
              · subst haddr
                cases u0 with
                | none => simp [validateResponse]
                | some uu => simp [validateResponse, eq_comm]
              · simp [validateResponse, haddr]
        · simp [validateResponse, hdom]
  · intro Point ctx signer req res now e hv
    simp only [sendRequest, hv]
  · intro Point ctx fromAddress res now fd dom hfd hdom hne
    have hv : validateResponse
        { toDomain := DOMAIN_INFOTAINMENT, fromAddress := fromAddress } res =
        .error .invalidSourceDomain := by
      obtain ⟨fd0, td0, u0, si0, sd0, pb0⟩ := res
      simp only at hfd
      subst hfd
      obtain ⟨dom0, fdaddr⟩ := fd
      simp only at hdom
      subst hdom
      simp [validateResponse, hne]
    simp [startSession, sendRequest, hv, Except.map]

/-- A response whose source domain (1) differs from the infotainment domain. -/
def resBadDomain : RoutableMessage :=
  { fromDestination := some ⟨some 1, none⟩, toDestination := none,
    requestUuid := none, sessionInfo := none, signatureData := none,
    protobufMessageAsBytes := none }

/-- Witness for C4: a handshake response with source domain 1 makes
`startSession` fail with the signer still null. -/
theorem response_validation_characterization_witness :
    startSession ctxB none [1] resBadDomain 0 =
      (none, .error .invalidSourceDomain) :=
  response_validation_characterization.2.2 ctxB [1] resBadDomain 0
    ⟨some 1, none⟩ 1 rfl rfl (by decide)

/-- C9: a command issued with no signer installed fails with the
session-not-started error and nothing else happens: the signer stays absent
(so no replay-counter value is consumed), the send trace is empty (no
transport send), and no signature is generated.  In the source the check on
line 78 also precedes the action encoding of lines 79-80. -/
theorem requestAction_requires_session {Point : Type} (ctx : CarCtx Point)
    (encodedPayload fromAddress : Bytes) (res : RoutableMessage) (now : Int) :
    requestAction ctx none encodedPayload fromAddress res now =
      (none, [], .error .sessionNotStarted) := rfl

theorem requestAction_carResponse {Point : Type} (ctx : CarCtx Point)
    (s : SignerState) (encodedPayload fromAddress : Bytes)
    (res : RoutableMessage) (now : Int) (sig : SignatureData)
    (sg : Option SignerState) (r : CarResponse)
    (hsig : (Signer.generateSignature ctx.hmac s encodedPayload
      DOMAIN_INFOTAINMENT now 5).2 = .ok sig)
    (hsend : sendRequest ctx (some { s with counter := s.counter + 1 })
      { toDomain := DOMAIN_INFOTAINMENT, fromAddress := fromAddress } res
      now = (sg, .ok (.carResponse r))) :
    requestAction ctx (some s) encodedPayload fromAddress res now =
      (sg, [encodedPayload], handleActionStatus r) := by
  simp only [requestAction, generateSignature_fst, hsig, hsend]

/-- C8: on a well-formed command response, status OK returns normally; status
ERROR with a plain-text reason raises an error whose message is that text;
ERROR with a reason lacking plain text raises the unknown-result-reason error;
ERROR without a reason raises the generic unknown error; any other status
value raises the invalid-action-result error; and when the round trip of
`#requestAction` yields a decoded command response, the call's outcome is
exactly this status handling. -/
theorem command_status_handling :
    (∀ rr : Option ResultReason,
      handleActionStatus ⟨some ⟨some OPERATIONSTATUS_OK, rr⟩⟩ = .ok ()) ∧
    (∀ txt : Bytes,
      handleActionStatus
        ⟨some ⟨some OPERATIONSTATUS_ERROR, some ⟨some txt⟩⟩⟩ =
        .error (.errMessage txt)) ∧
    (handleActionStatus ⟨some ⟨some OPERATIONSTATUS_ERROR, none⟩⟩ =
      .error .unknownError) ∧
    (handleActionStatus ⟨some ⟨some OPERATIONSTATUS_ERROR, some ⟨none⟩⟩⟩ =
      .error .unknownResultReason) ∧
    (∀ (r : Nat) (rr : Option ResultReason),
      handleActionStatus ⟨some ⟨some (r + 2), rr⟩⟩ =
        .error .invalidActionResult) ∧
    (∀ {Point : Type} (ctx : CarCtx Point) (s : SignerState)
       (encodedPayload fromAddress : Bytes) (res : RoutableMessage)
       (now : Int) (sig : SignatureData) (sg : Option SignerState)
       (r : CarResponse),
      (Signer.generateSignature ctx.hmac s encodedPayload DOMAIN_INFOTAINMENT
        now 5).2 = .ok sig →
      sendRequest ctx (some { s with counter := s.counter + 1 })
        { toDomain := DOMAIN_INFOTAINMENT, fromAddress := fromAddress } res
        now = (sg, .ok (.carResponse r)) →
      requestAction ctx (some s) encodedPayload fromAddress res now =
        (sg, [encodedPayload], handleActionStatus r)) := by
  refine ⟨fun rr => rfl, fun txt => rfl, rfl, rfl, ?_, ?_⟩
  · intro r rr
    simp only [handleActionStatus]
    rw [if_neg (by show ¬(r + 2 = 0); omega),
      if_neg (by show ¬(r + 2 = 1); omega)]
  · intro Point ctx s encodedPayload fromAddress res now sig sg r hsig hsend
    exact requestAction_carResponse ctx s encodedPayload fromAddress res now
      sig sg r hsig hsend

/-- A concrete context whose command responses decode to status ERROR with
plain-text reason "p" (byte 112). -/
def ctxC : CarCtx Nat :=
  { ctxB with decodeCarResponse := fun _ => ⟨some ⟨some 1, some ⟨some [112]⟩⟩⟩ }

/-- A command response with valid provenance carrying an opaque payload. -/
def resCmd : RoutableMessage :=
  { fromDestination := some ⟨some 3, none⟩,
    toDestination := some ⟨none, some [1]⟩,
    requestUuid := some [2],
    sessionInfo := none, signatureData := none,
    protobufMessageAsBytes := some [] }

/-- Witness for C8: a full `#requestAction` round trip whose response decodes
to status ERROR with reason byte string [112] resolves to the status
handling of that response. -/
theorem command_status_handling_witness :
    requestAction ctxC (some signerA) [] [1] resCmd 100 =
      (some { signerA with counter := signerA.counter + 1 }, [[]],
        handleActionStatus ⟨some ⟨some 1, some ⟨some [112]⟩⟩⟩) :=
  command_status_handling.2.2.2.2.2 ctxC signerA [] [1] resCmd 100
    ⟨[9], ⟨List.replicate 16 0, 8, 105, [0, 0]⟩⟩
    (some { signerA with counter := signerA.counter + 1 })
    ⟨some ⟨some 1, some ⟨some [112]⟩⟩⟩ (by decide) (by decide)

/-- C10: a command response that passes provenance validation but whose
decoded payload has no `actionStatus` field (or no `result` inside it) falls
through the status inspection, and the command call returns normally,
indistinguishable from an explicit OK status. -/
theorem statusless_response_returns_normally :
    (handleActionStatus ⟨none⟩ = .ok ()) ∧
    (∀ rr : Option ResultReason,
      handleActionStatus ⟨some ⟨none, rr⟩⟩ = .ok ()) ∧
    (∀ {Point : Type} (ctx : CarCtx Point) (s : SignerState)
       (encodedPayload fromAddress : Bytes) (res : RoutableMessage)
       (now : Int) (sig : SignatureData) (sg : Option SignerState)
       (r : CarResponse),
      (Signer.generateSignature ctx.hmac s encodedPayload DOMAIN_INFOTAINMENT
        now 5).2 = .ok sig →
      sendRequest ctx (some { s with counter := s.counter + 1 })
        { toDomain := DOMAIN_INFOTAINMENT, fromAddress := fromAddress } res
        now = (sg, .ok (.carResponse r)) →
      (r.actionStatus = none ∨
        ∃ st : ActionStatus, r.actionStatus = some st ∧ st.result = none) →
      requestAction ctx (some s) encodedPayload fromAddress res now =
        (sg, [encodedPayload], .ok ())) := by
  refine ⟨rfl, fun rr => rfl, ?_⟩
  intro Point ctx s encodedPayload fromAddress res now sig sg r hsig hsend hst
  have hok : handleActionStatus r = .ok () := by
    rcases hst with h | ⟨st, hst2, hres⟩
    · simp [handleActionStatus, h]
    · simp [handleActionStatus, hst2, hres]
  rw [requestAction_carResponse ctx s encodedPayload fromAddress res now
    sig sg r hsig hsend, hok]

/-- Witness for C10: a round trip whose response decodes to an empty
`CarServer.Response` (no action status) returns normally. -/
theorem statusless_response_returns_normally_witness :
    requestAction ctxB (some signerA) [] [1] resCmd 100 =
      (some { signerA with counter := signerA.counter + 1 }, [[]], .ok ()) :=
  statusless_response_returns_normally.2.2 ctxB signerA [] [1] resCmd 100
    ⟨[9], ⟨List.replicate 16 0, 8, 105, [0, 0]⟩⟩
    (some { signerA with counter := signerA.counter + 1 }) ⟨none⟩
    (by decide) (by decide) (Or.inl rfl)
